import Mathlib

/-!
Verification of the content-normalization layer of a stealth web-fetch MCP
server.  Strings from the Python source are modelled as `List Char`; Python
integers as `Int`; fallible operations as `Except`.  Each definition below is a
direct shallow embedding of the corresponding Python function, keeping the
source's names where Lean allows it.
-/

/-- Python whitespace predicate used by `str.strip` / `str.rstrip` and the
`\s` regex class (ASCII range, which is what the source data exercises). -/
def isPySpace (c : Char) : Bool :=
  c == ' ' || c == '\t' || c == '\n' || c == '\r' || c == '\x0B' || c == '\x0C'

/-- Python `value.rstrip()`: drop trailing whitespace. -/
def rstrip (s : List Char) : List Char :=
  (s.reverse.dropWhile isPySpace).reverse

/-- Python `value.lstrip()`: drop leading whitespace. -/
def lstrip (s : List Char) : List Char :=
  s.dropWhile isPySpace

/-- Python `value.strip()`: drop leading and trailing whitespace. -/
def pyStrip (s : List Char) : List Char :=
  rstrip (lstrip s)

/-- The marker appended by `_truncate` (source: `f"[truncated at {max_chars} chars]"`). -/
def truncMarker (maxChars : Int) : List Char :=
  ("[truncated at " ++ toString maxChars ++ " chars]").toList

/-- Embedding of `_truncate` (identical in `parser.py`, `client.py`, `server.py`):
`max_chars <= 0` returns the zero sentinel; short values pass through; long
values are cut at `max_chars`, right-stripped, and the marker is appended
after a newline. -/
def truncate (value : List Char) (maxChars : Int) : List Char :=
  if maxChars ≤ 0 then "[truncated at 0 chars]".toList
  else if (value.length : Int) ≤ maxChars then value
  else rstrip (value.take maxChars.toNat) ++ '\n' :: truncMarker maxChars

/-- Result record of `client._fetch` (dataclass `FetchResult`). -/
structure FetchResult where
  statusCode : Int
  finalUrl : List Char
  text : List Char
  headers : List (List Char × List Char)
deriving DecidableEq

/-- Embedding of `client._handle_error` restricted to its HTTP-status branch
(`status_code is not None and status_code >= 400`), which is the only branch
reachable from the status-`>=400` raise in `_fetch`. -/
def handleErrorStatus (statusCode : Int) (responseSnippet : List Char) : List Char :=
  let snippet := pyStrip responseSnippet
  if snippet ≠ [] then
    ("HTTP " ++ toString statusCode ++ " error. Response snippet: ").toList ++ snippet
  else ("HTTP " ++ toString statusCode ++ " error.").toList

/-- Embedding of the response-handling tail of `client._fetch`: once the
transport produced a response with `status_code`, `final_url`, body `text` and
`headers`, the client either raises `FetchError` (status `>= 400`, message via
`_handle_error` with a 300-char-truncated snippet) or returns a `FetchResult`
whose text is truncated to `max_chars`. -/
def fetchRespond (statusCode : Int) (finalUrl : List Char) (text : List Char)
    (headers : List (List Char × List Char)) (maxChars : Int) :
    Except (List Char) FetchResult :=
  if 400 ≤ statusCode then
    Except.error (handleErrorStatus statusCode (truncate text 300))
  else
    Except.ok ⟨statusCode, finalUrl, truncate text maxChars, headers⟩

deriving instance DecidableEq for Except

-- Sanity examples for the embedding (concrete evaluations).
example : truncate "hello".toList 10 = "hello".toList := by decide
example : truncate "hello world".toList 6 =
    ("hello\n" ++ "[truncated at 6 chars]").toList := by decide
example : truncate "hello".toList 0 = "[truncated at 0 chars]".toList := by decide
example : truncate "hello".toList (-3) = "[truncated at 0 chars]".toList := by decide
example :
    fetchRespond 500 [] "boom".toList [] 100 =
      Except.error ("HTTP 500 error. Response snippet: boom").toList := by decide
example :
    fetchRespond 404 [] "   ".toList [] 100 =
      Except.error ("HTTP 404 error.").toList := by decide

/-- C1: `truncate(v, n)` with `n <= 0` returns the fixed zero-marker string
regardless of `v`; with `n > 0` and `len(v) <= n` it returns `v` unchanged;
and with `len(v) > n` the result starts with `v[:n].rstrip()` and ends with
the exact marker `[truncated at {n} chars]`. -/
theorem C1_truncate_spec (v : List Char) (n : Int) :
    (n ≤ 0 → truncate v n = "[truncated at 0 chars]".toList) ∧
    (0 < n → (v.length : Int) ≤ n → truncate v n = v) ∧
    (0 < n → n < (v.length : Int) →
      rstrip (v.take n.toNat) <+: truncate v n ∧ truncMarker n <:+ truncate v n) := by
  refine ⟨fun h => ?_, fun h1 h2 => ?_, fun h1 h2 => ?_⟩
  · simp [truncate, h]
  · have hn : ¬ n ≤ 0 := not_le_of_lt h1
    simp [truncate, hn, h2]
  · have hn : ¬ n ≤ 0 := not_le_of_lt h1
    have hv : ¬ (v.length : Int) ≤ n := not_le_of_lt h2
    constructor
    · simp only [truncate, if_neg hn, if_neg hv]
      exact List.prefix_append _ _
    · simp only [truncate, if_neg hn, if_neg hv]
      have : rstrip (v.take n.toNat) ++ '\n' :: truncMarker n =
          (rstrip (v.take n.toNat) ++ ['\n']) ++ truncMarker n := by
        simp
      rw [this]
      exact List.suffix_append _ _

/-- Witness for C1 at concrete inputs exercising all three branches. -/
theorem C1_truncate_spec_witness :
    truncate "hi".toList (-1) = "[truncated at 0 chars]".toList ∧
    truncate "hi".toList 5 = "hi".toList ∧
    (rstrip ("hello world".toList.take 7) <+: truncate "hello world".toList 7 ∧
      truncMarker 7 <:+ truncate "hello world".toList 7) :=
  ⟨(C1_truncate_spec "hi".toList (-1)).1 (by decide),
   (C1_truncate_spec "hi".toList 5).2.1 (by decide) (by decide),
   (C1_truncate_spec "hello world".toList 7).2.2 (by decide) (by decide)⟩

theorem rstrip_self_pre (s : List Char) : rstrip s <+: s := by
  simpa [rstrip, List.rdropWhile] using List.rdropWhile_prefix (p := isPySpace) (l := s)

theorem rstrip_length_le (s : List Char) : (rstrip s).length ≤ s.length :=
  (rstrip_self_pre s).length_le

theorem lstrip_suffix (s : List Char) : lstrip s <:+ s := by
  simpa [lstrip] using List.dropWhile_suffix (p := isPySpace) (l := s)

theorem pyStrip_length_le (s : List Char) : (pyStrip s).length ≤ s.length :=
  le_trans (rstrip_length_le _) (lstrip_suffix s).length_le

theorem truncate_300_length_le (v : List Char) : (truncate v 300).length ≤ 325 := by
  by_cases hv : (v.length : Int) ≤ 300
  · have : v.length ≤ 300 := by exact_mod_cast hv
    simp only [truncate, if_neg (by norm_num : ¬ (300 : Int) ≤ 0), if_pos hv]
    omega
  · simp only [truncate, if_neg (by norm_num : ¬ (300 : Int) ≤ 0), if_neg hv]
    have h1 : (rstrip (v.take (300 : Int).toNat)).length ≤ 300 := by
      refine le_trans (rstrip_length_le _) ?_
      simp
    have h2 : (truncMarker 300).length = 24 := by decide
    simp only [List.length_append, List.length_cons]
    omega

/-- C2 counterexample: a response body of 301 spaces is empty after trimming,
yet for a status-500 response the raised message is not the snippetless
`HTTP 500 error.` — the snippet passed to `_handle_error` is the 300-char
truncation of the body, whose marker survives trimming. -/
theorem C2_counterexample :
    pyStrip (List.replicate 301 ' ') = [] ∧
    fetchRespond 500 [] (List.replicate 301 ' ') [] 1000 ≠
      Except.error ("HTTP 500 error.").toList ∧
    fetchRespond 500 [] (List.replicate 301 ' ') [] 1000 =
      Except.error ("HTTP 500 error. Response snippet: [truncated at 300 chars]").toList := by
  set_option maxRecDepth 4000 in decide

/-- C2 (amended): a response with status `>= 400` fails with message
`HTTP {code} error. Response snippet: {S}` where `S` is the trimmed
300-char truncation of the body (the body itself when it has at most 300
characters, else its first 300 characters right-stripped with the marker
`[truncated at 300 chars]` appended); the snippet part is omitted exactly
when `S` is empty, and `S` never exceeds 325 characters, drawing on at most
the first 300 characters of the body. -/
theorem C2_http_error_message (code : Int) (url text : List Char)
    (hdrs : List (List Char × List Char)) (maxChars : Int) (h : 400 ≤ code) :
    fetchRespond code url text hdrs maxChars =
      Except.error (handleErrorStatus code (truncate text 300)) ∧
    (pyStrip (truncate text 300) = [] →
      handleErrorStatus code (truncate text 300) =
        ("HTTP " ++ toString code ++ " error.").toList) ∧
    (pyStrip (truncate text 300) ≠ [] →
      handleErrorStatus code (truncate text 300) =
        ("HTTP " ++ toString code ++ " error. Response snippet: ").toList ++
          pyStrip (truncate text 300)) ∧
    (truncate text 300 = text ∨
      truncate text 300 = rstrip (text.take 300) ++ '\n' :: truncMarker 300) ∧
    (pyStrip (truncate text 300)).length ≤ 325 := by
  refine ⟨by simp [fetchRespond, h], fun he => ?_, fun hne => ?_, ?_, ?_⟩
  · simp [handleErrorStatus, he]
  · simp [handleErrorStatus, hne]
  · by_cases hv : (text.length : Int) ≤ 300
    · left; simp [truncate, hv]
    · right; simp [truncate, hv]
  · exact le_trans (pyStrip_length_le _) (truncate_300_length_le _)

/-- Witness for C2 at a concrete failing response. -/
theorem C2_http_error_message_witness :
    fetchRespond 503 [] "backend down".toList [] 100 =
      Except.error (handleErrorStatus 503 (truncate "backend down".toList 300)) ∧
    handleErrorStatus 503 (truncate "backend down".toList 300) =
      ("HTTP 503 error. Response snippet: backend down").toList :=
  ⟨(C2_http_error_message 503 [] "backend down".toList [] 100 (by decide)).1,
   by
    have h := (C2_http_error_message 503 [] "backend down".toList [] 100 (by decide)).2.2.1
      (by decide)
    rw [h]; decide⟩

/-- One entry of the bulk result list built by `_stealth_fetch_bulk_impl._fetch_one`:
either `{url, status: "ok", status_code, final_url, text}` or
`{url, status: "error", error}`. -/
inductive BulkEntry where
  | ok (url : List Char) (statusCode : Int) (finalUrl : List Char) (text : List Char)
  | err (url : List Char) (msg : List Char)
deriving DecidableEq

/-- Embedding of `_fetch_one` in `_stealth_fetch_bulk_impl`, given the outcome
`fetchF url` of the inner `_fetch` call: a success is wrapped as an `ok` entry,
a `FetchError` is caught and wrapped as an `err` entry. -/
def fetchOne (fetchF : List Char → Except (List Char) FetchResult)
    (url : List Char) : BulkEntry :=
  match fetchF url with
  | Except.ok r => BulkEntry.ok url r.statusCode r.finalUrl r.text
  | Except.error e => BulkEntry.err url e

/-- Model of `asyncio.gather`: task `j` writes its result into positional slot
`j` when it completes; `order` is the (arbitrary) completion order. -/
def gatherSlots (f : Nat → BulkEntry) (slots : List (Option BulkEntry))
    (order : List Nat) : List (Option BulkEntry) :=
  order.foldl (fun acc j => acc.set j (some (f j))) slots

/-- Embedding of the fan-out in `_stealth_fetch_bulk_impl`: one task per input
URL, results collected positionally, completion order `order`. -/
def bulkRun (fetchF : List Char → Except (List Char) FetchResult)
    (urls : List (List Char)) (order : List Nat) : List (Option BulkEntry) :=
  gatherSlots (fun j => fetchOne fetchF (urls.getD j []))
    (List.replicate urls.length none) order

theorem gatherSlots_getElem? (f : Nat → BulkEntry) (slots : List (Option BulkEntry))
    (order : List Nat) (j : Nat) :
    (gatherSlots f slots order)[j]? =
      if j ∈ order ∧ j < slots.length then some (some (f j)) else slots[j]? := by
  induction order generalizing slots with
  | nil => simp [gatherSlots]
  | cons k rest ih =>
    have hstep : gatherSlots f slots (k :: rest) =
        gatherSlots f (slots.set k (some (f k))) rest := rfl
    rw [hstep, ih]
    by_cases hjl : j < slots.length
    · by_cases hjr : j ∈ rest
      · simp [hjr, hjl]
      · by_cases hjk : j = k
        · subst hjk
          simp [hjr, hjl, List.getElem?_set]
        · simp [hjr, hjk, hjl, List.getElem?_set, Ne.symm hjk]
    · have hle : slots.length ≤ j := Nat.le_of_not_lt hjl
      have h1 : (slots.set k (some (f k)))[j]? = none :=
        List.getElem?_eq_none (by simpa using hle)
      have h2 : slots[j]? = none := List.getElem?_eq_none hle
      simp [hjl, h1, h2]

/-- C3: for every bulk input of 1–50 URLs and every completion order that
eventually completes each task, the result list equals the input-ordered list
of per-URL entries (one per URL, input order, independent of completion
order); a failing fetch contributes an `err` entry carrying its message while
successes are `ok` entries; the run is a total function — no single item's
failure can fail the whole call. -/
theorem C3_bulk_order_and_isolation (fetchF : List Char → Except (List Char) FetchResult)
    (urls : List (List Char)) (order : List Nat)
    (_h1 : 1 ≤ urls.length) (_h50 : urls.length ≤ 50)
    (hcover : ∀ i, i < urls.length → i ∈ order) :
    bulkRun fetchF urls order = urls.map (fun u => some (fetchOne fetchF u)) ∧
    (bulkRun fetchF urls order).length = urls.length ∧
    (∀ u r, fetchF u = Except.ok r →
      fetchOne fetchF u = BulkEntry.ok u r.statusCode r.finalUrl r.text) ∧
    (∀ u e, fetchF u = Except.error e → fetchOne fetchF u = BulkEntry.err u e) := by
  have hmain : bulkRun fetchF urls order = urls.map (fun u => some (fetchOne fetchF u)) := by
    apply List.ext_getElem?
    intro j
    rw [bulkRun, gatherSlots_getElem?]
    by_cases hj : j < urls.length
    · have hmem : j ∈ order := hcover j hj
      have hget : urls.getD j [] = urls[j] := by
        simp [List.getD_eq_getElem?_getD, List.getElem?_eq_getElem hj]
      simp [hmem, hj, hget, List.getElem?_map, List.getElem?_eq_getElem hj]
    · have hle : urls.length ≤ j := Nat.le_of_not_lt hj
      have hcond : ¬ (j ∈ order ∧
          j < (List.replicate urls.length (none : Option BulkEntry)).length) := by
        simp [Nat.not_lt.mpr hle]
      rw [if_neg hcond,
        List.getElem?_eq_none (l := List.replicate urls.length none) (by simpa using hle),
        List.getElem?_eq_none (by simpa using hle)]
  refine ⟨hmain, by rw [hmain]; simp, fun u r hr => ?_, fun u e he => ?_⟩
  · simp [fetchOne, hr]
  · simp [fetchOne, he]

/-- A concrete fetch oracle for the C3 witness: one reachable URL, one that
fails with a connection error. -/
def c3FetchF : List Char → Except (List Char) FetchResult := fun u =>
  if u = "https://ok.example/".toList then
    Except.ok ⟨200, "https://ok.example/".toList, "hi".toList, []⟩
  else
    Except.error
      ("DNS/connection failed. Check that the URL is correct and reachable.").toList

/-- Witness for C3: two URLs completing in reversed order still produce the
input-ordered entry list, with the failing URL isolated as an error entry. -/
theorem C3_bulk_order_and_isolation_witness :
    bulkRun c3FetchF ["https://ok.example/".toList, "https://bad.example/".toList] [1, 0] =
      (["https://ok.example/".toList, "https://bad.example/".toList]).map
        (fun u => some (fetchOne c3FetchF u)) ∧
    bulkRun c3FetchF ["https://ok.example/".toList, "https://bad.example/".toList] [1, 0] =
      [some (BulkEntry.ok "https://ok.example/".toList 200
          "https://ok.example/".toList "hi".toList),
       some (BulkEntry.err "https://bad.example/".toList
          ("DNS/connection failed. Check that the URL is correct and reachable.").toList)] :=
  ⟨(C3_bulk_order_and_isolation c3FetchF
      ["https://ok.example/".toList, "https://bad.example/".toList] [1, 0]
      (by decide) (by decide) (by decide)).1,
   by decide⟩

/-- Model of an `xml.etree.ElementTree` element as produced by `ET.fromstring`:
tag (in `\x7bnamespace\x7dlocal` form when namespaced), attributes, text, and
child elements. -/
inductive XElem where
  | mk (tag : List Char) (attrs : List (List Char × List Char))
      (text : Option (List Char)) (children : List XElem)

def XElem.tag : XElem → List Char
  | .mk t _ _ _ => t

def XElem.attrs : XElem → List (List Char × List Char)
  | .mk _ a _ _ => a

def XElem.text : XElem → Option (List Char)
  | .mk _ _ s _ => s

def XElem.children : XElem → List XElem
  | .mk _ _ _ cs => cs

/-- ElementTree `element.find(name)`: first direct child with the given tag. -/
def XElem.findChild (e : XElem) (name : List Char) : Option XElem :=
  e.children.find? (fun c => c.tag == name)

/-- ElementTree `element.findall(name)`: all direct children with the tag. -/
def XElem.findAllChild (e : XElem) (name : List Char) : List XElem :=
  e.children.filter (fun c => c.tag == name)

/-- Python `el.get(key) or ""`: attribute value, empty string when missing. -/
def XElem.attrGet (e : XElem) (key : List Char) : List Char :=
  ((e.attrs.find? (fun p => p.1 == key)).map Prod.snd).getD []

/-- Embedding of `parser._xml_text`: `""` for a missing element, else the
element's stripped text. -/
def xmlText : Option XElem → List Char
  | none => []
  | some e => pyStrip (e.text.getD [])

/-- One item of the unified feed output shape. -/
structure FeedItem where
  title : List Char
  link : List Char
  published : List Char
  summary : List Char
deriving DecidableEq

/-- The structured result of `parse_feed` (before JSON serialization). -/
structure FeedDoc where
  feedTitle : List Char
  feedLink : List Char
  items : List FeedItem
deriving DecidableEq

/-- The Atom XML namespace URI (`parser._ATOM_NS`). -/
def atomNS : List Char := "http://www.w3.org/2005/Atom".toList

/-- The `\x7bns\x7d` prefix ElementTree puts on Atom-namespaced tags. -/
def atomPfx : List Char := '{' :: atomNS ++ ['}']

/-- The fully qualified Atom feed root tag `\x7bns\x7dfeed`. -/
def atomFeedTag : List Char := atomPfx ++ "feed".toList

/-- A single-quote character (avoids quoting issues in string literals). -/
def sglq : Char := Char.ofNat 39

/-- RSS branch of `parse_feed`: one `<item>` to one output item. -/
def rssItemOf (it : XElem) : FeedItem :=
  { title := xmlText (it.findChild "title".toList)
    link := xmlText (it.findChild "link".toList)
    published := xmlText (it.findChild "pubDate".toList)
    summary := xmlText (it.findChild "description".toList) }

/-- The `href` of an optional `link` element:
`(link_el.get("href") or "") if link_el is not None else ""`. -/
def atomLinkHref (el : Option XElem) : List Char :=
  match el with
  | none => []
  | some l => l.attrGet "href".toList

/-- Atom branch of `parse_feed`: one `<entry>` to one output item, with the
`summary`-else-`content` and `updated`-else-`published` fallbacks. -/
def atomEntryOf (pfx : List Char) (entry : XElem) : FeedItem :=
  { title := xmlText (entry.findChild (pfx ++ "title".toList))
    link := atomLinkHref (entry.findChild (pfx ++ "link".toList))
    published := xmlText (match entry.findChild (pfx ++ "updated".toList) with
      | some u => some u
      | none => entry.findChild (pfx ++ "published".toList))
    summary := xmlText (match entry.findChild (pfx ++ "summary".toList) with
      | some s => some s
      | none => entry.findChild (pfx ++ "content".toList)) }

/-- The element-name prefix chosen by the Atom branch:
`pfx = f"\x7b\x7bns\x7d\x7d" if tag.startswith("\x7b") else ""`. -/
def atomTagPfx (tag : List Char) : List Char :=
  if tag.head? == some '{' then atomPfx else []

/-- Embedding of `parser.parse_feed`, taking the outcome of `ET.fromstring`
(element, or parse-error detail) as input and producing the structured feed
document (serialized to JSON by the source afterwards). -/
def parse_feed (xml : Except (List Char) XElem) (maxItems : Nat) :
    Except (List Char) FeedDoc :=
  match xml with
  | Except.error detail => Except.error ("Invalid XML feed: ".toList ++ detail)
  | Except.ok root =>
    if root.tag == "rss".toList || List.isSuffixOf ('}' :: "rss".toList) root.tag then
      match root.findChild "channel".toList with
      | none => Except.ok ⟨[], [], []⟩
      | some ch =>
        Except.ok ⟨xmlText (ch.findChild "title".toList),
          xmlText (ch.findChild "link".toList),
          ((ch.findAllChild "item".toList).take maxItems).map rssItemOf⟩
    else if root.tag == atomFeedTag || root.tag == "feed".toList then
      Except.ok ⟨xmlText (root.findChild (atomTagPfx root.tag ++ "title".toList)),
        atomLinkHref (root.findChild (atomTagPfx root.tag ++ "link".toList)),
        ((root.findAllChild (atomTagPfx root.tag ++ "entry".toList)).take maxItems).map
          (atomEntryOf (atomTagPfx root.tag))⟩
    else
      Except.error ("Unrecognized feed format: root tag ".toList ++ sglq :: root.tag ++ [sglq])

/-- Local name of an ElementTree tag as the claim uses it: the part after the
`\x7d` of a `\x7bnamespace\x7dlocal` form, or the whole tag when it carries no
namespace marker. -/
def localName (tag : List Char) : List Char :=
  if tag.contains '}' then (tag.dropWhile (fun c => c != '}')).drop 1 else tag

-- Sanity examples: an RSS root and both Atom root forms are accepted.
example : (parse_feed (Except.ok (XElem.mk "rss".toList [] none [])) 50).isOk := by decide
example : (parse_feed (Except.ok (XElem.mk "feed".toList [] none [])) 50).isOk := by decide
example : (parse_feed (Except.ok (XElem.mk atomFeedTag [] none [])) 50).isOk := by decide

/-- C4 counterexample: a well-formed root tag `\x7bhttp://example.com/ns\x7dfeed`
has local name `feed`, yet `parse_feed` rejects it — the code accepts `feed`
only un-namespaced or in the Atom namespace, so failure is not characterized
by the root's local name alone. -/
theorem C4_counterexample :
    localName ("\x7bhttp://example.com/ns\x7dfeed").toList = "feed".toList ∧
    parse_feed
        (Except.ok (XElem.mk ("\x7bhttp://example.com/ns\x7dfeed").toList [] none [])) 50 =
      Except.error (("Unrecognized feed format: root tag ").toList ++
        sglq :: ("\x7bhttp://example.com/ns\x7dfeed").toList ++ [sglq]) := by
  decide

/-- C4 (amended): `parse_feed` fails exactly when the input is malformed XML
(message `Invalid XML feed: {detail}`) or the well-formed root tag is none of:
`rss` in any or no namespace, `feed` un-namespaced, or `feed` in the Atom
namespace; in the latter case the message is
`Unrecognized feed format: root tag '{tag}'`.  Every well-formed RSS input and
every Atom input succeeds. -/
theorem C4_feed_failure_cases (xml : Except (List Char) XElem) (maxItems : Nat) :
    (∀ d, xml = Except.error d →
      parse_feed xml maxItems = Except.error ("Invalid XML feed: ".toList ++ d)) ∧
    (∀ root, xml = Except.ok root →
      ((parse_feed xml maxItems).isOk = true ↔
        (root.tag = "rss".toList ∨ List.isSuffixOf ('}' :: "rss".toList) root.tag = true ∨
          root.tag = atomFeedTag ∨ root.tag = "feed".toList)) ∧
      (¬ (root.tag = "rss".toList ∨ List.isSuffixOf ('}' :: "rss".toList) root.tag = true ∨
          root.tag = atomFeedTag ∨ root.tag = "feed".toList) →
        parse_feed xml maxItems =
          Except.error ("Unrecognized feed format: root tag ".toList ++
            sglq :: root.tag ++ [sglq]))) := by
  constructor
  · intro d hd
    subst hd
    rfl
  · intro root hr
    subst hr
    by_cases hrss :
        (root.tag == "rss".toList || List.isSuffixOf ('}' :: "rss".toList) root.tag) = true
    · have hok : (parse_feed (Except.ok root) maxItems).isOk = true := by
        show (if (root.tag == "rss".toList ||
            List.isSuffixOf ('}' :: "rss".toList) root.tag) = true then _ else _ :
          Except (List Char) FeedDoc).isOk = true
        rw [if_pos hrss]
        cases root.findChild "channel".toList <;> rfl
      have hprop : root.tag = "rss".toList ∨
          List.isSuffixOf ('}' :: "rss".toList) root.tag = true := by
        simpa [Bool.or_eq_true, beq_iff_eq] using hrss
      have hrec : root.tag = "rss".toList ∨
          List.isSuffixOf ('}' :: "rss".toList) root.tag = true ∨
          root.tag = atomFeedTag ∨ root.tag = "feed".toList := by
        rcases hprop with h | h
        · exact Or.inl h
        · exact Or.inr (Or.inl h)
      exact ⟨⟨fun _ => hrec, fun _ => hok⟩, fun hcon => absurd hrec hcon⟩
    · by_cases hatom : (root.tag == atomFeedTag || root.tag == "feed".toList) = true
      · have hok : (parse_feed (Except.ok root) maxItems).isOk = true := by
          show (if (root.tag == "rss".toList ||
              List.isSuffixOf ('}' :: "rss".toList) root.tag) = true then _ else _ :
            Except (List Char) FeedDoc).isOk = true
          rw [if_neg hrss, if_pos hatom]
          rfl
        have hprop : root.tag = atomFeedTag ∨ root.tag = "feed".toList := by
          simpa [Bool.or_eq_true, beq_iff_eq] using hatom
        have hrec : root.tag = "rss".toList ∨
            List.isSuffixOf ('}' :: "rss".toList) root.tag = true ∨
            root.tag = atomFeedTag ∨ root.tag = "feed".toList := by
          rcases hprop with h | h
          · exact Or.inr (Or.inr (Or.inl h))
          · exact Or.inr (Or.inr (Or.inr h))
        exact ⟨⟨fun _ => hrec, fun _ => hok⟩, fun hcon => absurd hrec hcon⟩
      · have herr : parse_feed (Except.ok root) maxItems =
            Except.error ("Unrecognized feed format: root tag ".toList ++
              sglq :: root.tag ++ [sglq]) := by
          show (if (root.tag == "rss".toList ||
              List.isSuffixOf ('}' :: "rss".toList) root.tag) = true then _ else _ :
            Except (List Char) FeedDoc) = _
          rw [if_neg hrss, if_neg hatom]
        refine ⟨⟨fun hok => ?_, fun hc => ?_⟩, fun _ => herr⟩
        · rw [herr] at hok
          simp [Except.isOk, Except.toBool] at hok
        · exfalso
          rcases hc with h | h | h | h
          · exact hrss (by rw [Bool.or_eq_true]; exact Or.inl (beq_iff_eq.mpr h))
          · exact hrss (by rw [Bool.or_eq_true]; exact Or.inr h)
          · exact hatom (by rw [Bool.or_eq_true]; exact Or.inl (beq_iff_eq.mpr h))
          · exact hatom (by rw [Bool.or_eq_true]; exact Or.inr (beq_iff_eq.mpr h))

/-- Witness for C4: a concrete malformed-XML input and a concrete RSS root. -/
theorem C4_feed_failure_cases_witness :
    parse_feed (Except.error ("not well-formed (invalid token): line 1, column 0").toList) 50 =
      Except.error ("Invalid XML feed: not well-formed (invalid token): line 1, column 0").toList ∧
    (parse_feed (Except.ok (XElem.mk "rss".toList [] none [])) 50).isOk = true :=
  ⟨by
    have h := (C4_feed_failure_cases
        (Except.error ("not well-formed (invalid token): line 1, column 0").toList) 50).1
      ("not well-formed (invalid token): line 1, column 0").toList rfl
    simpa using h,
   ((C4_feed_failure_cases (Except.ok (XElem.mk "rss".toList [] none [])) 50).2
      (XElem.mk "rss".toList [] none []) rfl).1.mpr (by decide)⟩

/-- A BeautifulSoup attribute value: plain string or multi-valued list
(`AttributeValueList`). -/
inductive AttrVal where
  | str (s : List Char)
  | vlist (vs : List (List Char))

/-- Model of a parsed HTML node: a `NavigableString` or a `Tag` with name,
attributes and children in document order. -/
inductive HNode where
  | text (s : List Char)
  | elem (tag : List Char) (attrs : List (List Char × AttrVal)) (children : List HNode)

/-- Python `re.sub(r"\s+", " ", value)`: collapse each whitespace run to a
single space. -/
def collapseWS : List Char → List Char
  | [] => []
  | [c] => if isPySpace c then [' '] else [c]
  | c :: d :: cs =>
    if isPySpace c then
      if isPySpace d then collapseWS (d :: cs)
      else ' ' :: d :: collapseWS cs
    else c :: collapseWS (d :: cs)

/-- Embedding of `parser._normalize_whitespace`:
`re.sub(r"\s+", " ", value).strip()`. -/
def normalizeWS (s : List Char) : List Char :=
  pyStrip (collapseWS s)

example : normalizeWS "  a \t\n b  ".toList = "a b".toList := by decide

mutual

/-- All text of a node's descendant strings, concatenated in document order —
BeautifulSoup `tag.get_text()` with the default empty separator. -/
def getTextN : HNode → List Char
  | .text s => s
  | .elem _ _ cs => getTextL cs

def getTextL : List HNode → List Char
  | [] => []
  | c :: cs => getTextN c ++ getTextL cs

end

mutual

/-- The descendants of a node satisfying `p`, in document (preorder) order,
excluding the node itself — BeautifulSoup `tag.find_all(...)`. -/
def descendantsN (p : HNode → Bool) : HNode → List HNode
  | .text _ => []
  | .elem _ _ cs => descendantsL p cs

def descendantsL (p : HNode → Bool) : List HNode → List HNode
  | [] => []
  | c :: cs => (if p c then [c] else []) ++ descendantsN p c ++ descendantsL p cs

end

/-- Does a node match a tag-name filter (text nodes never match)? -/
def isTagOf (names : List (List Char)) : HNode → Bool
  | .text _ => false
  | .elem t _ _ => names.contains t

/-- `tag.find_all(names)`: matching descendant elements in document order. -/
def findAllTags (names : List (List Char)) (n : HNode) : List HNode :=
  descendantsN (isTagOf names) n

/-- `tag.find(name)`: the first matching descendant, if any. -/
def findFirst (names : List (List Char)) (n : HNode) : Option HNode :=
  (findAllTags names n).head?

/-- Cell rendering in `extract_tables`: `_normalize_whitespace(cell.get_text())`. -/
def cellText (c : HNode) : List Char :=
  normalizeWS (getTextN c)

/-- First stage of header detection in `extract_tables`: the cell texts of the
first `<tr>` of the table's `<thead>`, when both exist. -/
def theadHeaders (table : HNode) : List (List Char) :=
  match findFirst ["thead".toList] table with
  | some thead =>
    match findFirst ["tr".toList] thead with
    | some headerTr => (findAllTags ["th".toList, "td".toList] headerTr).map cellText
    | none => []
  | none => []

/-- Header detection of `extract_tables` for one table: first the `<thead>`'s
first `<tr>`'s `th`/`td` cell texts; if that yields nothing (`if not headers`),
the table's first `<tr>` provided it contains a `<th>` anywhere below it. -/
def tableHeaders (table : HNode) : List (List Char) :=
  if (theadHeaders table).isEmpty then
    match findFirst ["tr".toList] table with
    | some firstTr =>
      if (findFirst ["th".toList] firstTr).isSome then
        (findAllTags ["th".toList, "td".toList] firstTr).map cellText
      else []
    | none => []
  else theadHeaders table

/-- Body-row collection of `extract_tables` for one table: rows from the
`<tbody>` if present, else every `<tr>` under the table; each row is its
`td`/`th` cell texts; rows whose cells are all empty are skipped. -/
def collectRows (table : HNode) : List (List (List Char)) :=
  let rowSource := (findFirst ["tbody".toList] table).getD table
  ((findAllTags ["tr".toList] rowSource).map
      (fun tr => (findAllTags ["td".toList, "th".toList] tr).map cellText)).filter
    (fun cells => cells.any (fun c => !c.isEmpty))

/-- Embedding of the per-table body of `extract_tables`: headers, rows, and
the drop-first-row de-duplication
(`if headers and rows and rows[0] == headers: rows = rows[1:]`). -/
def extractTable (table : HNode) : List (List Char) × List (List (List Char)) :=
  if !(tableHeaders table).isEmpty &&
      (collectRows table).head? == some (tableHeaders table) then
    (tableHeaders table, (collectRows table).tail)
  else (tableHeaders table, collectRows table)

-- Sanity examples matching the source's table tests.
example :
    extractTable (HNode.elem "table".toList []
      [HNode.elem "tr".toList []
        [HNode.elem "td".toList [] [HNode.text "A".toList],
         HNode.elem "td".toList [] [HNode.text "B".toList]]]) =
    ([], [["A".toList, "B".toList]]) := by decide
example :
    extractTable (HNode.elem "table".toList []
      [HNode.elem "tr".toList []
        [HNode.elem "th".toList [] [HNode.text "Col1".toList],
         HNode.elem "th".toList [] [HNode.text "Col2".toList]],
       HNode.elem "tr".toList []
        [HNode.elem "td".toList [] [HNode.text "val1".toList],
         HNode.elem "td".toList [] [HNode.text "val2".toList]]]) =
    (["Col1".toList, "Col2".toList], [["val1".toList, "val2".toList]]) := by decide

/-- C5: whenever the detected headers are non-empty and the first collected
body row equals the headers list, exactly that one row is dropped: the
extracted rows are the remaining collected rows, unchanged — so a second
equal row in the remainder is kept, and the drop happens only once. -/
theorem C5_header_row_dedup (table : HNode) (hs : List (List Char))
    (r0 : List (List Char)) (rest : List (List (List Char)))
    (hhead : tableHeaders table = hs) (hne : hs ≠ [])
    (hrows : collectRows table = r0 :: rest) (heq : r0 = hs) :
    extractTable table = (hs, rest) := by
  unfold extractTable
  rw [hhead, hrows, heq]
  have h1 : hs.isEmpty = false := by
    cases hs with
    | nil => exact absurd rfl hne
    | cons a t => rfl
  simp [h1]

/-- Witness for C5: a table whose explicit header row text equals its sole
data row — the duplicate is dropped once and the data row remains. -/
theorem C5_header_row_dedup_witness :
    extractTable (HNode.elem "table".toList []
      [HNode.elem "tr".toList [] [HNode.elem "th".toList [] [HNode.text "A".toList]],
       HNode.elem "tr".toList [] [HNode.elem "td".toList [] [HNode.text "A".toList]]]) =
      (["A".toList], [["A".toList]]) :=
  C5_header_row_dedup
    (HNode.elem "table".toList []
      [HNode.elem "tr".toList [] [HNode.elem "th".toList [] [HNode.text "A".toList]],
       HNode.elem "tr".toList [] [HNode.elem "td".toList [] [HNode.text "A".toList]]])
    ["A".toList] ["A".toList] [["A".toList]]
    (by decide) (by decide) (by decide) rfl

mutual

theorem mem_descendantsN_trans (p q : HNode → Bool) (n x y : HNode)
    (hx : x ∈ descendantsN q n) (hy : y ∈ descendantsN p x) : y ∈ descendantsN p n := by
  cases n with
  | text s => simp [descendantsN] at hx
  | elem t a cs =>
    have hx' : x ∈ descendantsL q cs := hx
    exact mem_descendantsL_trans p q cs x y hx' hy

theorem mem_descendantsL_trans (p q : HNode → Bool) (l : List HNode) (x y : HNode)
    (hx : x ∈ descendantsL q l) (hy : y ∈ descendantsN p x) : y ∈ descendantsL p l := by
  cases l with
  | nil => simp [descendantsL] at hx
  | cons c cs =>
    have hsplit : x ∈ (if q c then [c] else []) ∨
        x ∈ descendantsN q c ∨ x ∈ descendantsL q cs := by
      have := hx
      simp only [descendantsL, List.mem_append] at this
      tauto
    show y ∈ (if p c then [c] else []) ++ descendantsN p c ++ descendantsL p cs
    rcases hsplit with h | h | h
    · have hxc : x = c := by
        by_cases hq : q c = true <;> simp [hq] at h
        · exact h
      subst hxc
      simp only [List.mem_append]
      exact Or.inl (Or.inr hy)
    · have := mem_descendantsN_trans p q c x y h hy
      simp only [List.mem_append]
      exact Or.inl (Or.inr this)
    · have := mem_descendantsL_trans p q cs x y h hy
      simp only [List.mem_append]
      exact Or.inr this

end

/-- C6 counterexample: a table with no `<th>` cell anywhere but with a
`<thead>` whose row holds a `<td>` cell gets that cell text as headers
(non-empty), and the header-derived de-duplication then also drops the
first body row — both parts of the claim fail. -/
theorem C6_counterexample :
    (findAllTags ["th".toList]
      (HNode.elem "table".toList []
        [HNode.elem "thead".toList []
          [HNode.elem "tr".toList [] [HNode.elem "td".toList [] [HNode.text "A".toList]]],
         HNode.elem "tr".toList [] [HNode.elem "td".toList [] [HNode.text "A".toList]]])).isEmpty
      = true ∧
    extractTable
      (HNode.elem "table".toList []
        [HNode.elem "thead".toList []
          [HNode.elem "tr".toList [] [HNode.elem "td".toList [] [HNode.text "A".toList]]],
         HNode.elem "tr".toList [] [HNode.elem "td".toList [] [HNode.text "A".toList]]]) =
      (["A".toList], [["A".toList]]) ∧
    collectRows
      (HNode.elem "table".toList []
        [HNode.elem "thead".toList []
          [HNode.elem "tr".toList [] [HNode.elem "td".toList [] [HNode.text "A".toList]]],
         HNode.elem "tr".toList [] [HNode.elem "td".toList [] [HNode.text "A".toList]]]) =
      [["A".toList], ["A".toList]] := by
  decide

/-- C6 (amended): for every table containing neither a `<th>` cell nor a
`<thead>` section anywhere, the extracted headers are `[]` and the rows are
exactly the collected body rows, untouched by header detection or
de-duplication. -/
theorem C6_no_th_no_thead (table : HNode)
    (hth : (findAllTags ["th".toList] table).isEmpty = true)
    (hthead : (findAllTags ["thead".toList] table).isEmpty = true) :
    extractTable table = ([], collectRows table) := by
  have hth' : findAllTags ["th".toList] table = [] := List.isEmpty_iff.mp hth
  have hthead' : findAllTags ["thead".toList] table = [] := List.isEmpty_iff.mp hthead
  have hheaders : tableHeaders table = [] := by
    have h1 : findFirst ["thead".toList] table = none := by
      unfold findFirst
      rw [hthead']
      rfl
    have hT : theadHeaders table = [] := by
      unfold theadHeaders
      rw [h1]
    unfold tableHeaders
    rw [hT]
    simp only [List.isEmpty_nil, if_true]
    cases htr : findFirst ["tr".toList] table with
    | none => rfl
    | some firstTr =>
      have hmem : firstTr ∈ findAllTags ["tr".toList] table := by
        unfold findFirst at htr
        exact List.mem_of_mem_head? (by rw [htr]; rfl)
      have hnoth : findAllTags ["th".toList] firstTr = [] := by
        by_contra hne
        obtain ⟨y, hy⟩ := List.exists_mem_of_ne_nil _ hne
        have hmem2 : y ∈ findAllTags ["th".toList] table :=
          mem_descendantsN_trans (isTagOf ["th".toList]) (isTagOf ["tr".toList])
            table firstTr y hmem hy
        rw [hth'] at hmem2
        simp at hmem2
      have h2 : findFirst ["th".toList] firstTr = none := by
        unfold findFirst
        rw [hnoth]
        rfl
      show (if (findFirst ["th".toList] firstTr).isSome = true then
        List.map cellText (findAllTags ["th".toList, "td".toList] firstTr) else []) = []
      rw [h2]
      rfl
  unfold extractTable
  rw [hheaders]
  rfl

/-- Witness for C6 (amended): a header-free table keeps its rows as-is with
empty headers. -/
theorem C6_no_th_no_thead_witness :
    extractTable (HNode.elem "table".toList []
      [HNode.elem "tr".toList []
        [HNode.elem "td".toList [] [HNode.text "A".toList],
         HNode.elem "td".toList [] [HNode.text "B".toList]]]) =
      ([], collectRows (HNode.elem "table".toList []
        [HNode.elem "tr".toList []
          [HNode.elem "td".toList [] [HNode.text "A".toList],
           HNode.elem "td".toList [] [HNode.text "B".toList]]])) :=
  C6_no_th_no_thead
    (HNode.elem "table".toList []
      [HNode.elem "tr".toList []
        [HNode.elem "td".toList [] [HNode.text "A".toList],
         HNode.elem "td".toList [] [HNode.text "B".toList]]])
    (by decide) (by decide)

/-- Per-agent policy record of `parse_robots_txt`
(`{"allow": [], "disallow": [], "crawl_delay": None}`); delay values of type
`δ` abstract Python's `float(value)` result. -/
structure AgentPolicy (δ : Type) where
  allow : List (List Char)
  disallow : List (List Char)
  crawl_delay : Option δ
deriving DecidableEq

/-- The full parser state of `parse_robots_txt` while scanning lines:
the insertion-ordered `user_agents` map, the `sitemaps` list, and the
`current_agents` accumulator. -/
structure RobotsState (δ : Type) where
  user_agents : List (List Char × AgentPolicy δ)
  sitemaps : List (List Char)
  current_agents : List (List Char)
deriving DecidableEq

/-- In-place update of the entry with the given key, if present — models
`if agent in user_agents: user_agents[agent][...]...` (keys are unique by
construction). -/
def applyToAgent {δ : Type} (m : List (List Char × AgentPolicy δ)) (name : List Char)
    (f : AgentPolicy δ → AgentPolicy δ) : List (List Char × AgentPolicy δ) :=
  m.map (fun p => if p.1 = name then (p.1, f p.2) else p)

/-- The `for agent in current_agents:` loops of the rule branches. -/
def applyAgents {δ : Type} (m : List (List Char × AgentPolicy δ))
    (agents : List (List Char)) (f : AgentPolicy δ → AgentPolicy δ) :
    List (List Char × AgentPolicy δ) :=
  agents.foldl (fun acc a => applyToAgent acc a f) m

/-- `raw_line.split("#")[0].strip()`: comment removal plus trimming. -/
def stripLine (raw : List Char) : List Char :=
  pyStrip (raw.takeWhile (fun c => c != '#'))

/-- The directive key of a robots line: `line.partition(":")[0].strip().lower()`. -/
def lineKey (line : List Char) : List Char :=
  (pyStrip (line.takeWhile (fun c => c != ':'))).map Char.toLower

/-- The directive value of a robots line: `line.partition(":")[2].strip()`. -/
def lineValue (line : List Char) : List Char :=
  pyStrip ((line.dropWhile (fun c => c != ':')).drop 1)

/-- The `disallow` branch body: append the value to an agent's disallow list. -/
def addDisallow {δ : Type} (v : List Char) (p : AgentPolicy δ) : AgentPolicy δ :=
  { p with disallow := p.disallow ++ [v] }

/-- The `allow` branch body: append the value to an agent's allow list. -/
def addAllow {δ : Type} (v : List Char) (p : AgentPolicy δ) : AgentPolicy δ :=
  { p with allow := p.allow ++ [v] }

/-- The `crawl-delay` branch body: set an agent's delay. -/
def setDelay {δ : Type} (d : δ) (p : AgentPolicy δ) : AgentPolicy δ :=
  { p with crawl_delay := some d }

/-- Embedding of one loop iteration of `parse_robots_txt`: blank lines reset
the accumulator; separator-less lines are skipped; `user-agent`, `disallow`,
`allow`, `crawl-delay` and `sitemap` directives update the state as in the
source; unrecognized keys fall through unchanged.  `parseDelay` abstracts
Python's fallible `float(value)` conversion. -/
def lineStep {δ : Type} (parseDelay : List Char → Option δ) (st : RobotsState δ)
    (raw : List Char) : RobotsState δ :=
  if (stripLine raw).isEmpty then { st with current_agents := [] }
  else if !(stripLine raw).contains ':' then st
  else
    if lineKey (stripLine raw) = "user-agent".toList then
      { st with
        user_agents :=
          (if (st.user_agents.find?
              (fun p => p.1 == lineValue (stripLine raw))).isSome then st.user_agents
            else st.user_agents ++ [(lineValue (stripLine raw), ⟨[], [], none⟩)]),
        current_agents := st.current_agents ++ [lineValue (stripLine raw)] }
    else if lineKey (stripLine raw) = "disallow".toList then
      { st with user_agents :=
          (applyAgents st.user_agents st.current_agents
            (addDisallow (lineValue (stripLine raw)))) }
    else if lineKey (stripLine raw) = "allow".toList then
      { st with user_agents :=
          (applyAgents st.user_agents st.current_agents
            (addAllow (lineValue (stripLine raw)))) }
    else if lineKey (stripLine raw) = "crawl-delay".toList then
      match parseDelay (lineValue (stripLine raw)) with
      | none => st
      | some d =>
        { st with user_agents :=
            (applyAgents st.user_agents st.current_agents (setDelay d)) }
    else if lineKey (stripLine raw) = "sitemap".toList then
      { st with sitemaps :=
          (if st.sitemaps.contains (lineValue (stripLine raw)) then st.sitemaps
            else st.sitemaps ++ [lineValue (stripLine raw)]) }
    else st

/-- Embedding of `parse_robots_txt` over the `text.splitlines()` line list:
a fold of `lineStep` from the empty state. -/
def parse_robots_txt {δ : Type} (parseDelay : List Char → Option δ)
    (lines : List (List Char)) : RobotsState δ :=
  lines.foldl (lineStep parseDelay) ⟨[], [], []⟩

/-- A rule-directive key: `allow`, `disallow` or `crawl-delay`. -/
def isRuleKey (key : List Char) : Prop :=
  key = "allow".toList ∨ key = "disallow".toList ∨ key = "crawl-delay".toList

-- Sanity example mirroring the source's robots test.
example :
    parse_robots_txt (fun _ => (none : Option Nat))
      ["User-agent: *".toList, "Disallow: /admin".toList,
       "Sitemap: https://x/sm.xml".toList] =
    ⟨[("*".toList, ⟨[], ["/admin".toList], none⟩)],
      ["https://x/sm.xml".toList], ["*".toList]⟩ := by decide

theorem lineStep_rule_noop {δ : Type} (parseDelay : List Char → Option δ)
    (st : RobotsState δ) (raw : List Char)
    (hne : stripLine raw ≠ []) (hcolon : (stripLine raw).contains ':' = true)
    (hkey : isRuleKey (lineKey (stripLine raw)))
    (hagents : st.current_agents = []) :
    lineStep parseDelay st raw = st := by
  have hempty : (stripLine raw).isEmpty = false := by
    cases h : stripLine raw with
    | nil => exact absurd h hne
    | cons a t => rfl
  have hnotua : ¬ lineKey (stripLine raw) = "user-agent".toList := by
    rcases hkey with h | h | h <;> rw [h] <;> decide
  obtain ⟨ua, sm, ca⟩ := st
  have hca : ca = [] := hagents
  subst hca
  unfold lineStep
  rw [hempty, hcolon]
  simp only [Bool.false_eq_true, if_false, Bool.not_true, if_neg hnotua]
  rcases hkey with h | h | h
  · rw [if_neg (by rw [h]; decide), if_pos h]
    rfl
  · rw [if_pos h]
    rfl
  · rw [if_neg (by rw [h]; decide), if_neg (by rw [h]; decide), if_pos h]
    cases parseDelay (lineValue (stripLine raw)) with
    | none => rfl
    | some d => rfl

/-- C7: an `allow`/`disallow`/`crawl-delay` rule line encountered while no
user-agent grouping is active leaves the entire parse result unchanged (the
run with the line equals the run without it), and a blank line always resets
the active-agents accumulator to empty. -/
theorem C7_robots_inactive_rules {δ : Type} (parseDelay : List Char → Option δ)
    (pre post : List (List Char)) (l : List Char)
    (hne : stripLine l ≠ []) (hcolon : (stripLine l).contains ':' = true)
    (hkey : isRuleKey (lineKey (stripLine l)))
    (hempty : (parse_robots_txt parseDelay pre).current_agents = []) :
    parse_robots_txt parseDelay (pre ++ l :: post) =
      parse_robots_txt parseDelay (pre ++ post) ∧
    (∀ (st : RobotsState δ) (raw : List Char), stripLine raw = [] →
      lineStep parseDelay st raw = { st with current_agents := [] }) := by
  constructor
  · unfold parse_robots_txt
    rw [List.foldl_append, List.foldl_append, List.foldl_cons]
    have : lineStep parseDelay (List.foldl (lineStep parseDelay) ⟨[], [], []⟩ pre) l =
        List.foldl (lineStep parseDelay) ⟨[], [], []⟩ pre :=
      lineStep_rule_noop parseDelay _ l hne hcolon hkey hempty
    rw [this]
  · intro st raw hraw
    unfold lineStep
    rw [hraw]
    rfl

/-- Witness for C7: a `Disallow` before any `User-agent` line is dropped from
the result, and a blank line resets the accumulator. -/
theorem C7_robots_inactive_rules_witness :
    parse_robots_txt (fun _ => (none : Option Nat))
        ("Disallow: /admin".toList :: ["User-agent: *".toList, "Disallow: /x".toList]) =
      parse_robots_txt (fun _ => (none : Option Nat))
        ["User-agent: *".toList, "Disallow: /x".toList] ∧
    lineStep (fun _ => (none : Option Nat))
        ⟨[("*".toList, ⟨[], [], none⟩)], [], ["*".toList]⟩ "   ".toList =
      ⟨[("*".toList, ⟨[], [], none⟩)], [], []⟩ :=
  ⟨((C7_robots_inactive_rules (fun _ => (none : Option Nat)) []
      ["User-agent: *".toList, "Disallow: /x".toList] "Disallow: /admin".toList
      (by decide) (by decide) (by unfold isRuleKey; decide) rfl).1),
   ((C7_robots_inactive_rules (fun _ => (none : Option Nat)) []
      ["User-agent: *".toList, "Disallow: /x".toList] "Disallow: /admin".toList
      (by decide) (by decide) (by unfold isRuleKey; decide) rfl).2
     ⟨[("*".toList, ⟨[], [], none⟩)], [], ["*".toList]⟩ "   ".toList (by decide))⟩

/-- Python `sep.join(parts)`. -/
def joinSep (sep : List Char) : List (List Char) → List Char
  | [] => []
  | [x] => x
  | x :: xs => x ++ sep ++ joinSep sep xs

/-- `tag.get(key)`: attribute lookup returning `None` when absent. -/
def lookupAttr (attrs : List (List Char × AttrVal)) (key : List Char) : Option AttrVal :=
  (attrs.find? (fun p => p.1 == key)).map Prod.snd

/-- Embedding of `parser._href_to_str`: `None` gives `""`, a multi-valued
attribute is space-joined, a plain value passes through. -/
def hrefToStr : Option AttrVal → List Char
  | none => []
  | some (AttrVal.vlist vs) => joinSep [' '] vs
  | some (AttrVal.str s) => s

mutual

/-- The descendant strings of a node, in document order. -/
def textStringsN : HNode → List (List Char)
  | .text s => [s]
  | .elem _ _ cs => textStringsL cs

def textStringsL : List HNode → List (List Char)
  | [] => []
  | c :: cs => textStringsN c ++ textStringsL cs

end

/-- BeautifulSoup `tag.get_text(" ", strip=True)`: each descendant string is
stripped, empties are dropped, the rest joined with a single space. -/
def getTextSepStrip (n : HNode) : List Char :=
  joinSep [' '] (((textStringsN n).map pyStrip).filter (fun s => !s.isEmpty))

/-- Abstract regular-expression engine standing for Python's `re` module:
a fallible `compile`, and a primitive deciding whether a compiled pattern
matches a string starting at a given offset. -/
structure RegexEngine where
  R : Type
  compile : List Char → Except (List Char) R
  matchesAt : R → List Char → Nat → Bool

/-- `regex.search(s)` semantics: succeed if the pattern matches starting at
any offset — substring search, not an anchored full match. -/
def regexSearch (e : RegexEngine) (r : e.R) (s : List Char) : Bool :=
  (List.range (s.length + 1)).any (fun i => e.matchesAt r s i)

/-- One {text, href, absolute_url} result object of `extract_links`. -/
structure ExtractedLink where
  text : List Char
  href : List Char
  absolute_url : List Char
deriving DecidableEq

/-- `if regex and regex.search(href) is None: continue` — the skip test. -/
def regexSkip (e : RegexEngine) (regex : Option e.R) (href : List Char) : Bool :=
  match regex with
  | some r => !(regexSearch e r href)
  | none => false

/-- The result object appended for one anchor: normalized visible text, raw
href, and the href resolved against the base URL (`urljoin` abstracted as
`resolve`). -/
def linkOf (resolve : List Char → List Char → List Char) (baseUrl : List Char)
    (t : HNode) (href : List Char) : ExtractedLink :=
  ⟨normalizeWS (getTextSepStrip t), href, resolve baseUrl href⟩

/-- Embedding of the collection loop of `extract_links`: skip non-tags, skip
empty hrefs, skip regex non-matches, append otherwise, and break as soon as
`len(results) >= max_results` after an append. -/
def extractLinksLoop (e : RegexEngine) (resolve : List Char → List Char → List Char)
    (baseUrl : List Char) (regex : Option e.R) (maxResults : Nat) :
    List HNode → List ExtractedLink → List ExtractedLink
  | [], results => results
  | HNode.text _ :: ts, results =>
    extractLinksLoop e resolve baseUrl regex maxResults ts results
  | HNode.elem tg attrs cs :: ts, results =>
    if (pyStrip (hrefToStr (lookupAttr attrs "href".toList))).isEmpty then
      extractLinksLoop e resolve baseUrl regex maxResults ts results
    else if regexSkip e regex (pyStrip (hrefToStr (lookupAttr attrs "href".toList))) then
      extractLinksLoop e resolve baseUrl regex maxResults ts results
    else if maxResults ≤ results.length + 1 then
      results ++ [linkOf resolve baseUrl (HNode.elem tg attrs cs)
        (pyStrip (hrefToStr (lookupAttr attrs "href".toList)))]
    else
      extractLinksLoop e resolve baseUrl regex maxResults ts
        (results ++ [linkOf resolve baseUrl (HNode.elem tg attrs cs)
          (pyStrip (hrefToStr (lookupAttr attrs "href".toList)))])

/-- Embedding of `parser.extract_links` from the point where the CSS
selector produced the candidate tag list `tags` (in document order): compile
the pattern up front when supplied and non-empty (`if pattern:`), failing
hard on a bad pattern, then run the collection loop. -/
def extract_links (e : RegexEngine) (resolve : List Char → List Char → List Char)
    (tags : List HNode) (baseUrl : List Char) (pattern : Option (List Char))
    (maxResults : Nat) : Except (List Char) (List ExtractedLink) :=
  match pattern with
  | some p =>
    if p.isEmpty then
      Except.ok (extractLinksLoop e resolve baseUrl none maxResults tags [])
    else
      match e.compile p with
      | Except.error msg => Except.error ("Invalid regex pattern: ".toList ++ msg)
      | Except.ok r =>
        Except.ok (extractLinksLoop e resolve baseUrl (some r) maxResults tags [])
  | none => Except.ok (extractLinksLoop e resolve baseUrl none maxResults tags [])

/-- The per-tag inclusion test of the loop as a single partial map: a tag
contributes a link exactly when it is an element, its flattened stripped
href is non-empty and the regex (when present) search-matches the href. -/
def mkLink (e : RegexEngine) (resolve : List Char → List Char → List Char)
    (baseUrl : List Char) (regex : Option e.R) : HNode → Option ExtractedLink
  | HNode.text _ => none
  | HNode.elem tg attrs cs =>
    if (pyStrip (hrefToStr (lookupAttr attrs "href".toList))).isEmpty then none
    else if regexSkip e regex (pyStrip (hrefToStr (lookupAttr attrs "href".toList))) then none
    else some (linkOf resolve baseUrl (HNode.elem tg attrs cs)
      (pyStrip (hrefToStr (lookupAttr attrs "href".toList))))

theorem extractLinksLoop_cons_elem (e : RegexEngine)
    (resolve : List Char → List Char → List Char) (baseUrl : List Char)
    (regex : Option e.R) (maxResults : Nat) (tg : List Char)
    (attrs : List (List Char × AttrVal)) (cs ts : List HNode)
    (acc : List ExtractedLink) :
    extractLinksLoop e resolve baseUrl regex maxResults (HNode.elem tg attrs cs :: ts) acc =
      if (pyStrip (hrefToStr (lookupAttr attrs "href".toList))).isEmpty then
        extractLinksLoop e resolve baseUrl regex maxResults ts acc
      else if regexSkip e regex (pyStrip (hrefToStr (lookupAttr attrs "href".toList))) then
        extractLinksLoop e resolve baseUrl regex maxResults ts acc
      else if maxResults ≤ acc.length + 1 then
        acc ++ [linkOf resolve baseUrl (HNode.elem tg attrs cs)
          (pyStrip (hrefToStr (lookupAttr attrs "href".toList)))]
      else
        extractLinksLoop e resolve baseUrl regex maxResults ts
          (acc ++ [linkOf resolve baseUrl (HNode.elem tg attrs cs)
            (pyStrip (hrefToStr (lookupAttr attrs "href".toList)))]) := rfl

theorem extractLinksLoop_eq_take (e : RegexEngine)
    (resolve : List Char → List Char → List Char) (baseUrl : List Char)
    (regex : Option e.R) (maxResults : Nat) (tags : List HNode)
    (acc : List ExtractedLink) (hacc : acc.length < maxResults) :
    extractLinksLoop e resolve baseUrl regex maxResults tags acc =
      acc ++ List.take (maxResults - acc.length)
        (List.filterMap (mkLink e resolve baseUrl regex) tags) := by
  induction tags generalizing acc with
  | nil => simp [extractLinksLoop]
  | cons t ts ih =>
    cases t with
    | text s => simpa [extractLinksLoop, mkLink] using ih acc hacc
    | elem tg attrs cs =>
      rw [extractLinksLoop_cons_elem, List.filterMap_cons]
      by_cases hhref : (pyStrip (hrefToStr (lookupAttr attrs "href".toList))).isEmpty = true
      · rw [if_pos hhref]
        simp only [mkLink, if_pos hhref]
        exact ih acc hacc
      · by_cases hskip :
            regexSkip e regex (pyStrip (hrefToStr (lookupAttr attrs "href".toList))) = true
        · rw [if_neg hhref, if_pos hskip]
          simp only [mkLink, if_neg hhref, if_pos hskip]
          exact ih acc hacc
        · rw [if_neg hhref, if_neg hskip]
          simp only [mkLink, if_neg hhref, if_neg hskip]
          by_cases hbreak : maxResults ≤ acc.length + 1
          · have hone : maxResults - acc.length = 1 := by omega
            rw [if_pos hbreak, hone]
            simp
          · rw [if_neg hbreak]
            have hlen : (acc ++ [linkOf resolve baseUrl (HNode.elem tg attrs cs)
                (pyStrip (hrefToStr (lookupAttr attrs "href".toList)))]).length < maxResults := by
              simp only [List.length_append, List.length_cons, List.length_nil]
              omega
            rw [ih _ hlen]
            have htake : maxResults -
                (acc ++ [linkOf resolve baseUrl (HNode.elem tg attrs cs)
                  (pyStrip (hrefToStr (lookupAttr attrs "href".toList)))]).length =
                maxResults - acc.length - 1 := by
              simp only [List.length_append, List.length_cons, List.length_nil]
              omega
            rw [htake]
            have hsucc : maxResults - acc.length = (maxResults - acc.length - 1) + 1 := by
              omega
            rw [hsucc, List.take_succ_cons]
            simp

/-- C8: a supplied non-empty filter pattern that fails to compile makes
`extract_links` fail hard with `Invalid regex pattern: {detail}` before any
per-link processing; when it compiles, the result is exactly the first
`max_results` links (document order preserved) of the per-tag map that keeps
a link only when its stripped href is non-empty and the regex search-matches
it; and the search primitive succeeds exactly when the pattern matches at
some offset (substring semantics, not full match). -/
theorem C8_link_filter (e : RegexEngine) (resolve : List Char → List Char → List Char)
    (tags : List HNode) (baseUrl : List Char) (p : List Char) (maxResults : Nat) :
    (∀ m, p.isEmpty = false → e.compile p = Except.error m →
      extract_links e resolve tags baseUrl (some p) maxResults =
        Except.error ("Invalid regex pattern: ".toList ++ m)) ∧
    (∀ r, p.isEmpty = false → e.compile p = Except.ok r → 1 ≤ maxResults →
      extract_links e resolve tags baseUrl (some p) maxResults =
        Except.ok (List.take maxResults
          (List.filterMap (mkLink e resolve baseUrl (some r)) tags))) ∧
    (∀ (r : e.R) (s : List Char),
      regexSearch e r s = true ↔ ∃ i, i ≤ s.length ∧ e.matchesAt r s i = true) := by
  have hred : extract_links e resolve tags baseUrl (some p) maxResults =
      if p.isEmpty = true then
        Except.ok (extractLinksLoop e resolve baseUrl none maxResults tags [])
      else match e.compile p with
        | Except.error msg => Except.error ("Invalid regex pattern: ".toList ++ msg)
        | Except.ok r =>
          Except.ok (extractLinksLoop e resolve baseUrl (some r) maxResults tags []) := rfl
  refine ⟨fun m hp hc => ?_, fun r hp hc hmax => ?_, fun r s => ?_⟩
  · rw [hred, hp]
    simp only [Bool.false_eq_true, if_false]
    rw [hc]
  · rw [hred, hp]
    simp only [Bool.false_eq_true, if_false]
    rw [hc]
    show Except.ok (extractLinksLoop e resolve baseUrl (some r) maxResults tags []) =
      Except.ok (List.take maxResults (List.filterMap (mkLink e resolve baseUrl (some r)) tags))
    have h := extractLinksLoop_eq_take e resolve baseUrl (some r) maxResults tags []
      (by simpa using hmax)
    rw [h]
    simp
  · unfold regexSearch
    rw [List.any_eq_true]
    constructor
    · rintro ⟨i, hi, hm⟩
      exact ⟨i, by simpa using Nat.lt_succ_iff.mp (List.mem_range.mp hi), hm⟩
    · rintro ⟨i, hi, hm⟩
      exact ⟨i, List.mem_range.mpr (Nat.lt_succ_of_le hi), hm⟩

/-- A concrete literal-substring regex engine for the C8 witness: patterns
containing `(` fail to compile, others match wherever they occur verbatim. -/
@[reducible] def litRegexEngine : RegexEngine where
  R := List Char
  compile := fun p =>
    if p.contains '(' then Except.error "missing ), unterminated subpattern".toList
    else Except.ok p
  matchesAt := fun r s i => (s.drop i).take r.length == r

/-- Witness for C8, mirroring the spec scenario: three anchors, one href
containing `/news/`, pattern `/news/`, `max_results = 1` — exactly one entry,
whose `absolute_url` is the base resolved against that href; and a
non-compiling pattern fails hard. -/
theorem C8_link_filter_witness :
    extract_links litRegexEngine (fun b h => b ++ h)
        [HNode.elem "a".toList [("href".toList, AttrVal.str "/home".toList)]
           [HNode.text "Home".toList],
         HNode.elem "a".toList [("href".toList, AttrVal.str "/news/today".toList)]
           [HNode.text "News".toList],
         HNode.elem "a".toList [("href".toList, AttrVal.str "/about".toList)]
           [HNode.text "About".toList]]
        "https://ex.com".toList (some "/news/".toList) 1 =
      Except.ok [⟨"News".toList, "/news/today".toList,
        "https://ex.com/news/today".toList⟩] ∧
    extract_links litRegexEngine (fun b h => b ++ h) [] "https://ex.com".toList
        (some "(".toList) 10 =
      Except.error "Invalid regex pattern: missing ), unterminated subpattern".toList := by
  constructor
  · have h := (C8_link_filter litRegexEngine (fun b h => b ++ h)
        [HNode.elem "a".toList [("href".toList, AttrVal.str "/home".toList)]
           [HNode.text "Home".toList],
         HNode.elem "a".toList [("href".toList, AttrVal.str "/news/today".toList)]
           [HNode.text "News".toList],
         HNode.elem "a".toList [("href".toList, AttrVal.str "/about".toList)]
           [HNode.text "About".toList]]
        "https://ex.com".toList "/news/".toList 1).2.1
      "/news/".toList (by decide) (by decide) (by decide)
    rw [h]
    decide
  · exact (C8_link_filter litRegexEngine (fun b h => b ++ h) [] "https://ex.com".toList
      "(".toList 10).1 "missing ), unterminated subpattern".toList (by decide) (by decide)

/-- The noise element kinds removed globally (`parser.NOISE_TAGS`). -/
def NOISE_TAGS : List (List Char) :=
  ["script".toList, "style".toList, "noscript".toList, "nav".toList,
   "footer".toList, "aside".toList, "form".toList, "svg".toList, "iframe".toList]

mutual

/-- Removal of one node under `tag.decompose()` for the noise sweep: a noise
element disappears with its whole subtree, anything else is kept with its
children filtered. -/
def decomposeN : HNode → Option HNode
  | .text s => some (.text s)
  | .elem t a cs =>
    if NOISE_TAGS.contains t then none else some (.elem t a (decomposeL cs))

def decomposeL : List HNode → List HNode
  | [] => []
  | c :: cs =>
    (match decomposeN c with
      | some c2 => [c2]
      | none => []) ++ decomposeL cs

end

/-- The global noise sweep `for tag in soup.find_all(NOISE_TAGS): tag.decompose()`
applied to the parsed document: the document object itself is not a
candidate, only descendants are. -/
def decomposeSoup : HNode → HNode
  | .text s => .text s
  | .elem t a cs => .elem t a (decomposeL cs)

mutual

/-- Embedding of `parser._inline_text`: strings are whitespace-normalized,
noise elements render empty, anchors render as `[text](href)` with the href
standing in for missing text, and other elements join their non-empty child
renderings with single spaces. -/
def inlineTextN : HNode → List Char
  | .text s => normalizeWS s
  | .elem t attrs cs =>
    if NOISE_TAGS.contains t then []
    else if t == "a".toList then
      (if (pyStrip (hrefToStr (lookupAttr attrs "href".toList))).isEmpty then
        (if (normalizeWS (joinSep [' '] (inlineTextL cs))).isEmpty then
          pyStrip (hrefToStr (lookupAttr attrs "href".toList))
        else normalizeWS (joinSep [' '] (inlineTextL cs)))
      else
        '[' :: (if (normalizeWS (joinSep [' '] (inlineTextL cs))).isEmpty then
            pyStrip (hrefToStr (lookupAttr attrs "href".toList))
          else normalizeWS (joinSep [' '] (inlineTextL cs))) ++
          ']' :: '(' :: pyStrip (hrefToStr (lookupAttr attrs "href".toList)) ++ [')'])
    else normalizeWS (joinSep [' '] ((inlineTextL cs).filter (fun s => !s.isEmpty)))

def inlineTextL : List HNode → List (List Char)
  | [] => []
  | c :: cs => inlineTextN c :: inlineTextL cs

end

/-- The block kinds visited by the rendering pass of `_clean_html`. -/
def trackedTags : List (List Char) :=
  ["h1".toList, "h2".toList, "h3".toList, "h4".toList, "h5".toList, "h6".toList,
   "p".toList, "li".toList, "div".toList]

/-- `int(tag.name[1])` for the heading kinds. -/
def headingLevel (t : List Char) : Option Nat :=
  if t = "h1".toList then some 1 else if t = "h2".toList then some 2
  else if t = "h3".toList then some 3 else if t = "h4".toList then some 4
  else if t = "h5".toList then some 5 else if t = "h6".toList then some 6
  else none

/-- Is a node a tag of one of the tracked block kinds? -/
def isTrackedElem : HNode → Bool
  | .text _ => false
  | .elem t _ _ => trackedTags.contains t

/-- One iteration of the block-rendering loop of `_clean_html`: container
`div`s (with a direct tracked-block child) and empty-text blocks emit
nothing; headings take a `#`-prefix, list items a `- ` prefix, the rest
render bare. -/
def renderBlock : HNode → Option (List Char)
  | .text _ => none
  | .elem t a cs =>
    if t = "div".toList ∧ cs.any isTrackedElem then none
    else
      if (normalizeWS (inlineTextN (.elem t a cs))).isEmpty then none
      else match headingLevel t with
        | some lvl =>
          some (List.replicate lvl '#' ++ ' ' :: normalizeWS (inlineTextN (.elem t a cs)))
        | none =>
          if t = "li".toList then
            some ('-' :: ' ' :: normalizeWS (inlineTextN (.elem t a cs)))
          else some (normalizeWS (inlineTextN (.elem t a cs)))

/-- The rendered lines of the block pass over a render root. -/
def renderedLines (target : HNode) : List (List Char) :=
  (findAllTags trackedTags target).filterMap renderBlock

/-- `soup.body or soup`: the render root when no selector applies. -/
def bodyOrRoot (soup : HNode) : HNode :=
  (findFirst ["body".toList] soup).getD soup

/-- The prefix emitted when a selector matches nothing:
`f"[selector not found: {selector}]\n\n"`. -/
def selNotFoundPrefix (sel : List Char) : List Char :=
  "[selector not found: ".toList ++ sel ++ "]\n\n".toList

/-- The visible bracketed part of the selector-not-found prefix. -/
def selBracket (sel : List Char) : List Char :=
  "[selector not found: ".toList ++ sel ++ "]".toList

/-- Embedding of `parser._clean_html`: remove noise globally, pick the render
root (`soup.body or soup`, or the first selector match, with the not-found
prefix on a miss — `if selector:` makes an empty selector behave as none),
render the tracked blocks, join with newlines, strip, truncate.  `selectOne`
abstracts `soup.select_one` (CSS matching). -/
def clean_html (selectOne : List Char → HNode → Option HNode) (soup : HNode)
    (selector : Option (List Char)) (maxChars : Int) : List Char :=
  match selector with
  | some sel =>
    if sel.isEmpty then
      truncate (pyStrip
        (joinSep ['\n'] (renderedLines (bodyOrRoot (decomposeSoup soup))))) maxChars
    else
      match selectOne sel (decomposeSoup soup) with
      | none =>
        truncate (pyStrip (selNotFoundPrefix sel ++
          joinSep ['\n'] (renderedLines (bodyOrRoot (decomposeSoup soup))))) maxChars
      | some selEl =>
        truncate (pyStrip (joinSep ['\n'] (renderedLines selEl))) maxChars
  | none =>
    truncate (pyStrip
      (joinSep ['\n'] (renderedLines (bodyOrRoot (decomposeSoup soup))))) maxChars

-- Sanity example mirroring the spec's HTML-reduction test.
example :
    clean_html (fun _ _ => none)
      (HNode.elem "html".toList [] [HNode.elem "body".toList []
        [HNode.elem "nav".toList [] [HNode.text "menu".toList],
         HNode.elem "h1".toList [] [HNode.text "Heading".toList],
         HNode.elem "p".toList [] [HNode.text "Paragraph ".toList,
           HNode.elem "a".toList [("href".toList, AttrVal.str "/a".toList)]
             [HNode.text "Link".toList]],
         HNode.elem "ul".toList [] [
           HNode.elem "li".toList [] [HNode.text "First".toList],
           HNode.elem "li".toList [] [HNode.text "Second".toList]],
         HNode.elem "script".toList [] [HNode.text "alert(1)".toList]]])
      none 50000 =
    ("# Heading\nParagraph [Link](/a)\n- First\n- Second").toList := by
  decide

theorem rstrip_append_of_last (bs t : List Char) (c : Char) (hc : isPySpace c = false) :
    (bs ++ [c]) <+: rstrip (bs ++ [c] ++ t) := by
  have hrev : (bs ++ [c] ++ t).reverse = t.reverse ++ (c :: bs.reverse) := by
    simp
  unfold rstrip
  rw [hrev, List.dropWhile_append]
  by_cases he : (t.reverse.dropWhile isPySpace).isEmpty = true
  · rw [if_pos he, List.dropWhile_cons_of_neg (by simp [hc])]
    simp
  · rw [if_neg he, List.reverse_append, List.reverse_cons, List.reverse_reverse]
    exact List.prefix_append _ _

theorem pyStrip_append_of_last (b0 bs t : List Char) (c0 c : Char)
    (hb : b0 = c0 :: bs ++ [c]) (hc0 : isPySpace c0 = false) (hc : isPySpace c = false) :
    b0 <+: pyStrip (b0 ++ t) := by
  subst hb
  have hl : lstrip ((c0 :: bs ++ [c]) ++ t) = (c0 :: bs ++ [c]) ++ t := by
    unfold lstrip
    rw [show (c0 :: bs ++ [c]) ++ t = c0 :: (bs ++ [c] ++ t) by simp]
    rw [List.dropWhile_cons_of_neg (by simp [hc0])]
  unfold pyStrip
  rw [hl]
  have := rstrip_append_of_last (c0 :: bs) t c hc
  simpa using this

theorem truncate_keeps_prefix (b v : List Char) (n : Int) (bs : List Char) (c : Char)
    (hb : b = bs ++ [c]) (hc : isPySpace c = false)
    (hpre : b <+: v) (hlen : (b.length : Int) ≤ n) (hpos : 0 < n) :
    b <+: truncate v n := by
  have hn0 : ¬ n ≤ 0 := not_le_of_lt hpos
  by_cases hv : (v.length : Int) ≤ n
  · unfold truncate
    rw [if_neg hn0, if_pos hv]
    exact hpre
  · unfold truncate
    rw [if_neg hn0, if_neg hv]
    obtain ⟨rest, hrest⟩ := hpre
    have hble : b.length ≤ n.toNat := by omega
    have htake : v.take n.toNat = b ++ rest.take (n.toNat - b.length) := by
      rw [← hrest, List.take_append_eq_append_take, List.take_of_length_le hble]
    rw [htake, hb]
    have h1 : bs ++ [c] <+: rstrip (bs ++ [c] ++ rest.take (n.toNat - (bs ++ [c]).length)) :=
      rstrip_append_of_last bs _ c hc
    exact h1.trans (List.prefix_append _ _)

theorem truncate_ne_nil (v : List Char) (n : Int) (hv : v ≠ []) : truncate v n ≠ [] := by
  unfold truncate
  by_cases h0 : n ≤ 0
  · rw [if_pos h0]
    decide
  · rw [if_neg h0]
    by_cases hl : (v.length : Int) ≤ n
    · rw [if_pos hl]
      exact hv
    · rw [if_neg hl]
      simp

theorem selBracket_shape (sel : List Char) :
    selBracket sel = '[' :: ("selector not found: ".toList ++ sel) ++ [']'] := by
  simp [selBracket]

theorem selBracket_prefix_pyStrip (sel t : List Char) :
    selBracket sel <+: pyStrip (selBracket sel ++ t) := by
  refine pyStrip_append_of_last (selBracket sel)
    ("selector not found: ".toList ++ sel) t '[' ']' ?_ (by decide) (by decide)
  simpa using selBracket_shape sel

/-- C9 counterexample: with the valid tool input `max_chars = 1` and a
selector matching nothing, the reducer's output is the truncation remnant
`[` plus the marker — it does not start with the full
`[selector not found: div]` prefix (though it is non-empty). -/
theorem C9_counterexample :
    clean_html (fun _ _ => none)
        (HNode.elem "html".toList [] [HNode.elem "body".toList []
          [HNode.elem "p".toList [] [HNode.text "Hello".toList]]])
        (some "div".toList) 1 =
      ("[\n[truncated at 1 chars]").toList ∧
    ¬ ("[selector not found: div]".toList <+:
       clean_html (fun _ _ => none)
        (HNode.elem "html".toList [] [HNode.elem "body".toList []
          [HNode.elem "p".toList [] [HNode.text "Hello".toList]]])
        (some "div".toList) 1) := by
  decide

/-- C9 (amended): when a non-empty selector matches nothing, the reducer's
output is the `max_chars` truncation of the stripped concatenation of the
`[selector not found: {selector}]` prefix and the full-document fallback
rendering; the output starts with that prefix whenever `max_chars` is at
least the prefix length (truncation can otherwise cut into it), and the
output is never empty. -/
theorem C9_selector_fallback (selectOne : List Char → HNode → Option HNode)
    (soup : HNode) (sel : List Char) (maxChars : Int)
    (hsel : sel.isEmpty = false)
    (hnone : selectOne sel (decomposeSoup soup) = none) :
    clean_html selectOne soup (some sel) maxChars =
      truncate (pyStrip (selNotFoundPrefix sel ++
        joinSep ['\n'] (renderedLines (bodyOrRoot (decomposeSoup soup))))) maxChars ∧
    (((selBracket sel).length : Int) ≤ maxChars →
      selBracket sel <+: clean_html selectOne soup (some sel) maxChars) ∧
    clean_html selectOne soup (some sel) maxChars ≠ [] := by
  have hred0 : clean_html selectOne soup (some sel) maxChars =
      if sel.isEmpty = true then
        truncate (pyStrip
          (joinSep ['\n'] (renderedLines (bodyOrRoot (decomposeSoup soup))))) maxChars
      else match selectOne sel (decomposeSoup soup) with
        | none =>
          truncate (pyStrip (selNotFoundPrefix sel ++
            joinSep ['\n'] (renderedLines (bodyOrRoot (decomposeSoup soup))))) maxChars
        | some selEl =>
          truncate (pyStrip (joinSep ['\n'] (renderedLines selEl))) maxChars := rfl
  have hred : clean_html selectOne soup (some sel) maxChars =
      truncate (pyStrip (selNotFoundPrefix sel ++
        joinSep ['\n'] (renderedLines (bodyOrRoot (decomposeSoup soup))))) maxChars := by
    rw [hred0, hsel]
    simp only [Bool.false_eq_true, if_false]
    rw [hnone]
  have hsplit : selNotFoundPrefix sel ++
      joinSep ['\n'] (renderedLines (bodyOrRoot (decomposeSoup soup))) =
      selBracket sel ++
        ('\n' :: '\n' :: joinSep ['\n'] (renderedLines (bodyOrRoot (decomposeSoup soup)))) := by
    simp [selNotFoundPrefix, selBracket]
  have hpre : selBracket sel <+: pyStrip (selNotFoundPrefix sel ++
      joinSep ['\n'] (renderedLines (bodyOrRoot (decomposeSoup soup)))) := by
    rw [hsplit]
    exact selBracket_prefix_pyStrip sel _
  have hbshape : selBracket sel = ("[selector not found: ".toList ++ sel) ++ [']'] := by
    simp [selBracket]
  have hbne : selBracket sel ≠ [] := by
    rw [hbshape]
    simp
  have hvne : pyStrip (selNotFoundPrefix sel ++
      joinSep ['\n'] (renderedLines (bodyOrRoot (decomposeSoup soup)))) ≠ [] := by
    intro h
    rw [h] at hpre
    exact hbne (List.prefix_nil.mp hpre)
  refine ⟨hred, fun hlen => ?_, ?_⟩
  · rw [hred]
    have hpos : 0 < maxChars := by
      have h1 : 1 ≤ (selBracket sel).length := by
        rw [hbshape]
        simp
      omega
    exact truncate_keeps_prefix (selBracket sel) _ maxChars
      ("[selector not found: ".toList ++ sel) ']' hbshape (by decide) hpre hlen hpos
  · rw [hred]
    exact truncate_ne_nil _ maxChars hvne

/-- Witness for C9 at a concrete document, selector and the default 50,000
character limit: the output starts with the not-found prefix and is the
stripped prefix-plus-fallback rendering. -/
theorem C9_selector_fallback_witness :
    clean_html (fun _ _ => none)
        (HNode.elem "html".toList [] [HNode.elem "body".toList []
          [HNode.elem "p".toList [] [HNode.text "Hello".toList]]])
        (some "div".toList) 50000 =
      ("[selector not found: div]\n\nHello").toList ∧
    selBracket "div".toList <+:
      clean_html (fun _ _ => none)
        (HNode.elem "html".toList [] [HNode.elem "body".toList []
          [HNode.elem "p".toList [] [HNode.text "Hello".toList]]])
        (some "div".toList) 50000 ∧
    clean_html (fun _ _ => none)
        (HNode.elem "html".toList [] [HNode.elem "body".toList []
          [HNode.elem "p".toList [] [HNode.text "Hello".toList]]])
        (some "div".toList) 50000 ≠ [] := by
  refine ⟨?_, ?_, ?_⟩
  · have h := (C9_selector_fallback (fun _ _ => none)
        (HNode.elem "html".toList [] [HNode.elem "body".toList []
          [HNode.elem "p".toList [] [HNode.text "Hello".toList]]])
        "div".toList 50000 (by decide) rfl).1
    rw [h]
    decide
  · exact (C9_selector_fallback (fun _ _ => none)
        (HNode.elem "html".toList [] [HNode.elem "body".toList []
          [HNode.elem "p".toList [] [HNode.text "Hello".toList]]])
        "div".toList 50000 (by decide) rfl).2.1 (by decide)
  · exact (C9_selector_fallback (fun _ _ => none)
        (HNode.elem "html".toList [] [HNode.elem "body".toList []
          [HNode.elem "p".toList [] [HNode.text "Hello".toList]]])
        "div".toList 50000 (by decide) rfl).2.2

/-- A JSON value, covering the shapes serialized by the headers and robots
tools. -/
inductive JVal where
  | jstr (s : List Char)
  | jint (n : Int)
  | jnum (raw : List Char)
  | jnull
  | jarr (xs : List JVal)
  | jobj (fields : List (List Char × JVal))

/-- A lowercase hexadecimal digit. -/
def hexDigit (n : Nat) : Char :=
  if n < 10 then Char.ofNat (48 + n) else Char.ofNat (97 + (n - 10))

/-- A `\uXXXX` escape for a 16-bit unit. -/
def uEscape (n : Nat) : List Char :=
  ['\\', 'u', hexDigit ((n / 4096) % 16), hexDigit ((n / 256) % 16),
   hexDigit ((n / 16) % 16), hexDigit (n % 16)]

/-- Character escaping of `json.dumps` with its default `ensure_ascii=True`:
short escapes for the JSON specials, `\uXXXX` (with surrogate pairs) for
control and non-ASCII characters, everything else verbatim. -/
def escChar (c : Char) : List Char :=
  if c = '"' then ['\\', '"']
  else if c = '\\' then ['\\', '\\']
  else if c = '\n' then ['\\', 'n']
  else if c = '\t' then ['\\', 't']
  else if c = '\r' then ['\\', 'r']
  else if c = '\x08' then ['\\', 'b']
  else if c = '\x0C' then ['\\', 'f']
  else if c.toNat < 32 ∨ 127 ≤ c.toNat then
    if c.toNat < 65536 then uEscape c.toNat
    else uEscape (55296 + (c.toNat - 65536) / 1024) ++
      uEscape (56320 + (c.toNat - 65536) % 1024)
  else [c]

/-- String-body escaping of `json.dumps`. -/
def jEscape (s : List Char) : List Char :=
  (s.map escChar).flatten


/-- Container layout of `json.dumps(..., indent=2)`: rendered child pieces
are indented two further spaces, separated by `,\n`, wrapped in the bracket
pair with the closing bracket back at the current indent; empty containers
print as the bare bracket pair. -/
def joinPieces (lvl : Nat) (openC closeC : Char) (pieces : List (List Char)) : List Char :=
  match pieces with
  | [] => [openC, closeC]
  | p :: ps =>
    openC :: '\n' :: (joinSep (',' :: ['\n'])
      ((p :: ps).map (fun q => List.replicate (2 * (lvl + 1)) ' ' ++ q)) ++
      '\n' :: List.replicate (2 * lvl) ' ' ++ [closeC])

mutual

/-- `json.dumps(value, indent=2)` at nesting level `lvl`. -/
def jser (lvl : Nat) : JVal → List Char
  | .jstr s => '"' :: jEscape s ++ ['"']
  | .jint n => (toString n).toList
  | .jnum raw => raw
  | .jnull => "null".toList
  | .jarr xs => joinPieces lvl '[' ']' (jserList (lvl + 1) xs)
  | .jobj fs => joinPieces lvl '{' '}' (jserFieldList (lvl + 1) fs)

/-- The rendered items of an array. -/
def jserList (lvl : Nat) : List JVal → List (List Char)
  | [] => []
  | x :: xs => jser lvl x :: jserList lvl xs

/-- The rendered `"key": value` fields of an object. -/
def jserFieldList (lvl : Nat) : List (List Char × JVal) → List (List Char)
  | [] => []
  | (k, v) :: fs =>
    ('"' :: jEscape k ++ '"' :: ':' :: ' ' :: jser lvl v) :: jserFieldList lvl fs

end

-- Serializer sanity checks against `json.dumps(..., indent=2)`.
example : jser 0 (JVal.jobj []) = "\x7b\x7d".toList := by decide
example :
    jser 0 (JVal.jobj [("a".toList, JVal.jint 1)]) =
      ("\x7b\n  \x22a\x22: 1\n\x7d").toList := by decide
example :
    jser 0 (JVal.jobj [("h".toList, JVal.jobj [("x".toList, JVal.jstr "y".toList)])]) =
      ("\x7b\n  \x22h\x22: \x7b\n    \x22x\x22: \x22y\x22\n  \x7d\n\x7d").toList := by
  decide
example :
    jser 0 (JVal.jobj [("s".toList, JVal.jarr [JVal.jstr "u".toList])]) =
      ("\x7b\n  \x22s\x22: [\n    \x22u\x22\n  ]\n\x7d").toList := by decide

/-- Embedding of the output construction of `_stealth_fetch_headers_impl`:
the JSON serialization of `{status_code, final_url, headers}` returned
directly — the tool input has no `max_chars` field and no truncation is
applied to the output. -/
def fetchHeadersOutput (r : FetchResult) : List Char :=
  jser 0 (JVal.jobj
    [("status_code".toList, JVal.jint r.statusCode),
     ("final_url".toList, JVal.jstr r.finalUrl),
     ("headers".toList, JVal.jobj (r.headers.map (fun p => (p.1, JVal.jstr p.2))))])

/-- JSON shape of one agent's policy in the robots output. -/
def agentPolicyJson {δ : Type} (showDelay : δ → JVal) (p : AgentPolicy δ) : JVal :=
  JVal.jobj
    [("allow".toList, JVal.jarr (p.allow.map JVal.jstr)),
     ("disallow".toList, JVal.jarr (p.disallow.map JVal.jstr)),
     ("crawl_delay".toList, (p.crawl_delay.map showDelay).getD JVal.jnull)]

/-- Embedding of the output construction of `_stealth_fetch_robots_impl`:
the parsed robots policy with the derived robots URL added under `url`,
JSON-serialized and returned directly — the tool input has no `max_chars`
field and no truncation is applied to the output. -/
def fetchRobotsOutput {δ : Type} (showDelay : δ → JVal)
    (parseDelay : List Char → Option δ) (bodyLines : List (List Char))
    (robotsUrl : List Char) : List Char :=
  jser 0 (JVal.jobj
    [("user_agents".toList, JVal.jobj
        ((parse_robots_txt parseDelay bodyLines).user_agents.map
          (fun p => (p.1, agentPolicyJson showDelay p.2)))),
     ("sitemaps".toList,
        JVal.jarr ((parse_robots_txt parseDelay bodyLines).sitemaps.map JVal.jstr)),
     ("url".toList, JVal.jstr robotsUrl)])

theorem joinSep_mem_length_le (sep q : List Char) (xs : List (List Char)) (hq : q ∈ xs) :
    q.length ≤ (joinSep sep xs).length := by
  induction xs with
  | nil => simp at hq
  | cons x ys ih =>
    cases ys with
    | nil =>
      have : q = x := by simpa using hq
      subst this
      exact le_refl _
    | cons y zs =>
      rcases List.mem_cons.mp hq with hx | hrest
      · subst hx
        show _ ≤ (q ++ sep ++ joinSep sep (y :: zs)).length
        simp [List.length_append]
      · calc q.length ≤ (joinSep sep (y :: zs)).length := ih hrest
          _ ≤ (x ++ sep ++ joinSep sep (y :: zs)).length := by
              simp only [List.length_append]
              omega

theorem joinPieces_mem_length_le (lvl : Nat) (oc cc : Char) (q : List Char)
    (pieces : List (List Char)) (hq : q ∈ pieces) :
    q.length ≤ (joinPieces lvl oc cc pieces).length := by
  cases pieces with
  | nil => simp at hq
  | cons p ps =>
    have hmem : List.replicate (2 * (lvl + 1)) ' ' ++ q ∈
        (p :: ps).map (fun r => List.replicate (2 * (lvl + 1)) ' ' ++ r) :=
      List.mem_map_of_mem _ hq
    have h1 : q.length ≤ (List.replicate (2 * (lvl + 1)) ' ' ++ q).length := by
      simp [List.length_append]
    have h2 := joinSep_mem_length_le (',' :: ['\n']) _ _ hmem
    show q.length ≤ (oc :: '\n' :: (joinSep (',' :: ['\n'])
      ((p :: ps).map (fun r => List.replicate (2 * (lvl + 1)) ' ' ++ r)) ++
      '\n' :: List.replicate (2 * lvl) ' ' ++ [cc])).length
    simp only [List.length_cons, List.length_append]
    omega

theorem mem_jserFieldList (lvl : Nat) (k : List Char) (v : JVal)
    (fs : List (List Char × JVal)) (hmem : (k, v) ∈ fs) :
    ('"' :: jEscape k ++ '"' :: ':' :: ' ' :: jser lvl v) ∈ jserFieldList lvl fs := by
  induction fs with
  | nil => simp at hmem
  | cons f gs ih =>
    obtain ⟨k2, v2⟩ := f
    rcases List.mem_cons.mp hmem with heq | hrest
    · rw [show jserFieldList lvl ((k2, v2) :: gs) =
        ('"' :: jEscape k2 ++ '"' :: ':' :: ' ' :: jser lvl v2) ::
          jserFieldList lvl gs from rfl]
      exact List.mem_cons.mpr (Or.inl (by rw [(Prod.mk.injEq _ _ _ _).mp heq |>.1,
        (Prod.mk.injEq _ _ _ _).mp heq |>.2]))
    · rw [show jserFieldList lvl ((k2, v2) :: gs) =
        ('"' :: jEscape k2 ++ '"' :: ':' :: ' ' :: jser lvl v2) ::
          jserFieldList lvl gs from rfl]
      exact List.mem_cons.mpr (Or.inr (ih hrest))

theorem jser_obj_field_length_le (lvl : Nat) (k : List Char) (v : JVal)
    (fs : List (List Char × JVal)) (hmem : (k, v) ∈ fs) :
    (jser (lvl + 1) v).length ≤ (jser lvl (JVal.jobj fs)).length := by
  have hpiece := mem_jserFieldList (lvl + 1) k v fs hmem
  have h1 : (jser (lvl + 1) v).length ≤
      ('"' :: jEscape k ++ '"' :: ':' :: ' ' :: jser (lvl + 1) v).length := by
    simp only [List.length_cons, List.length_append]
    omega
  have h2 := joinPieces_mem_length_le lvl '{' '}' _ (jserFieldList (lvl + 1) fs) hpiece
  calc (jser (lvl + 1) v).length
      ≤ ('"' :: jEscape k ++ '"' :: ':' :: ' ' :: jser (lvl + 1) v).length := h1
    _ ≤ (joinPieces lvl '{' '}' (jserFieldList (lvl + 1) fs)).length := h2
    _ = (jser lvl (JVal.jobj fs)).length := rfl

theorem jEscape_replicate_a (m : Nat) :
    jEscape (List.replicate m 'a') = List.replicate m 'a' := by
  unfold jEscape
  rw [List.map_replicate, show escChar 'a' = ['a'] by decide]
  induction m with
  | zero => rfl
  | succ k ih =>
    rw [List.replicate_succ, List.replicate_succ, List.flatten_cons, ih]
    rfl

/-- C10: the headers and robots tools serialize their JSON output and return
it directly, applying no truncator and enforcing no character bound on the
final output string: for every bound there is a fetch result (respectively a
robots URL, whatever the fetched body) whose output exceeds it. -/
theorem C10_headers_robots_unbounded :
    (∀ n : Nat, ∃ r : FetchResult, n < (fetchHeadersOutput r).length) ∧
    (∀ (n : Nat) (δ : Type) (showDelay : δ → JVal)
      (parseDelay : List Char → Option δ) (bodyLines : List (List Char)),
      ∃ url : List Char,
        n < (fetchRobotsOutput showDelay parseDelay bodyLines url).length) := by
  have hstr : ∀ n : Nat, (jser 1 (JVal.jstr (List.replicate (n + 1) 'a'))).length = n + 3 := by
    intro n
    show ('"' :: jEscape (List.replicate (n + 1) 'a') ++ ['"']).length = n + 3
    rw [jEscape_replicate_a]
    simp
  constructor
  · intro n
    refine ⟨⟨0, List.replicate (n + 1) 'a', [], []⟩, ?_⟩
    have h2 := jser_obj_field_length_le 0 "final_url".toList
      (JVal.jstr (List.replicate (n + 1) 'a'))
      [("status_code".toList, JVal.jint 0),
       ("final_url".toList, JVal.jstr (List.replicate (n + 1) 'a')),
       ("headers".toList, JVal.jobj (List.map (fun p : List Char × List Char => (p.1, JVal.jstr p.2)) []))]
      (by simp)
    have h1 := hstr n
    show n < (jser 0 (JVal.jobj
      [("status_code".toList, JVal.jint 0),
       ("final_url".toList, JVal.jstr (List.replicate (n + 1) 'a')),
       ("headers".toList,
          JVal.jobj (List.map (fun p : List Char × List Char => (p.1, JVal.jstr p.2)) []))])).length
    have h2b : (jser 1 (JVal.jstr (List.replicate (n + 1) 'a'))).length ≤
        (jser 0 (JVal.jobj
          [("status_code".toList, JVal.jint 0),
           ("final_url".toList, JVal.jstr (List.replicate (n + 1) 'a')),
           ("headers".toList, JVal.jobj (List.map (fun p : List Char × List Char =>
             (p.1, JVal.jstr p.2)) []))])).length := by
      simpa using h2
    omega
  · intro n δ showDelay parseDelay bodyLines
    refine ⟨List.replicate (n + 1) 'a', ?_⟩
    have h2 := jser_obj_field_length_le 0 "url".toList
      (JVal.jstr (List.replicate (n + 1) 'a'))
      [("user_agents".toList, JVal.jobj
          ((parse_robots_txt parseDelay bodyLines).user_agents.map
            (fun p => (p.1, agentPolicyJson showDelay p.2)))),
       ("sitemaps".toList,
          JVal.jarr ((parse_robots_txt parseDelay bodyLines).sitemaps.map JVal.jstr)),
       ("url".toList, JVal.jstr (List.replicate (n + 1) 'a'))]
      (by simp)
    have h1 := hstr n
    show n < (jser 0 (JVal.jobj
      [("user_agents".toList, JVal.jobj
          ((parse_robots_txt parseDelay bodyLines).user_agents.map
            (fun p => (p.1, agentPolicyJson showDelay p.2)))),
       ("sitemaps".toList,
          JVal.jarr ((parse_robots_txt parseDelay bodyLines).sitemaps.map JVal.jstr)),
       ("url".toList, JVal.jstr (List.replicate (n + 1) 'a'))])).length
    have h2b : (jser 1 (JVal.jstr (List.replicate (n + 1) 'a'))).length ≤
        (jser 0 (JVal.jobj
          [("user_agents".toList, JVal.jobj
              ((parse_robots_txt parseDelay bodyLines).user_agents.map
                (fun p => (p.1, agentPolicyJson showDelay p.2)))),
           ("sitemaps".toList,
              JVal.jarr ((parse_robots_txt parseDelay bodyLines).sitemaps.map JVal.jstr)),
           ("url".toList, JVal.jstr (List.replicate (n + 1) 'a'))])).length := by
      simpa using h2
    omega
